import Mathlib

/-! Shallow embedding of `src/abz/acousticbrainz.py` (acousticbrainz-client).

External effects are modelled as explicit oracle inputs: one
`ExtractBehavior` per `run_extractor` invocation (exit code, whether the
extractor wrote the output file, what it wrote, whether the user interrupted
the extraction), and one outcome value per HTTP POST.  The sqlite `filelog`
table is modelled as an append-only list of rows threaded through the
functions.  Temporary-file existence is tracked as an explicit boolean in
each result. -/

namespace Abz

/-- Hex-digit test, modelling which single characters `int(s, 16)` accepts. -/
def isHexChar (c : Char) : Bool :=
  c.isDigit || ('a' ≤ c && c ≤ 'f') || ('A' ≤ c && c ≤ 'F')

/-- Model of `u.replace("urn:", "")` on the character list: remove every
occurrence, scanning left to right, without rescanning spliced text. -/
def removeUrn : List Char → List Char
  | 'u' :: 'r' :: 'n' :: ':' :: rest => removeUrn rest
  | c :: rest => c :: removeUrn rest
  | [] => []

/-- Model of `u.replace("uuid:", "")`. -/
def removeUuid : List Char → List Char
  | 'u' :: 'u' :: 'i' :: 'd' :: ':' :: rest => removeUuid rest
  | c :: rest => c :: removeUuid rest
  | [] => []

/-- One of the two curly-brace characters, written by code point. -/
def isBraceChar (c : Char) : Bool :=
  c == Char.ofNat 123 || c == Char.ofNat 125

/-- Model of stripping curly braces from both ends of the string. -/
def stripBraces (l : List Char) : List Char :=
  ((l.dropWhile isBraceChar).reverse.dropWhile isBraceChar).reverse

/-- `is_valid_uuid` (acousticbrainz.py lines 53-58).  `uuid.UUID(u)` succeeds
iff, after removing `urn:` and `uuid:`, stripping curly braces from the ends
and removing all hyphens, exactly 32 hexadecimal digits remain. -/
def is_valid_uuid (u : String) : Bool :=
  let hex := stripBraces (removeUuid (removeUrn u.data))
  let hex := hex.filter (fun c => c != '-')
  hex.length == 32 && hex.all isHexChar

/-- One row of the sqlite `filelog` table: `(filename, reason)`.
`reason = none` is a success entry. -/
structure LedgerEntry where
  filename : String
  reason : Option String
deriving DecidableEq

/-- The `filelog` table, append-only, threaded through the pipeline. -/
structure Ledger where
  entries : List LedgerEntry
deriving DecidableEq

/-- `add_to_filelist` (lines 46-50): insert one row and commit.  The source's
default argument `reason=None` is passed explicitly at every call site. -/
def add_to_filelist (L : Ledger) (filepath : String) (reason : Option String) :
    Ledger :=
  ⟨L.entries ++ [⟨filepath, reason⟩]⟩

/-- `is_processed` (lines 61-68): any row with this filename counts,
whatever its reason. -/
def is_processed (L : Ledger) (filepath : String) : Bool :=
  L.entries.any (fun e => e.filename == filepath)

/-- The value at `features["metadata"]["tags"]["musicbrainz_trackid"]`:
a single string or a list of strings (lines 124-126). -/
inductive TagValue where
  | str (s : String)
  | list (ss : List String)
deriving DecidableEq

/-- The part of the extractor's JSON document the pipeline reads.
`trackid = none` models the key path being absent, in which case the lookup
raises `KeyError` — which the surrounding `except ValueError` does not
catch. -/
structure FeatureDoc where
  trackid : Option TagValue
deriving DecidableEq

/-- Content of the temporary output file: either text rejected by
`json.load` (raising `ValueError`), or a feature document. -/
inductive FileContent where
  | invalidJson
  | valid (doc : FeatureDoc)
deriving DecidableEq

/-- Oracle for one `run_extractor` invocation (lines 71-82): the process exit
code, whether the extractor created the output file, what it wrote there, and
whether a `KeyboardInterrupt` arrived during the extraction. -/
structure ExtractBehavior where
  retcode : Int
  wroteFile : Bool
  content : FileContent
  interrupted : Bool
deriving DecidableEq

/-- Outcome of `requests.post` plus `raise_for_status` in `submit_features`
(lines 86-92): success, an `HTTPError` (caught by `process_file`), or any
other exception (not caught). -/
inductive SubmitOutcome where
  | ok
  | httpError (body : String)
  | otherError
deriving DecidableEq

/-- Environment for one `process_file` call. -/
structure FileEnv where
  extract : ExtractBehavior
  submit : SubmitOutcome
deriving DecidableEq

/-- Lines 124-129 of `process_file`: wrap a bare string into a list, keep the
entries that are valid UUIDs, take the first (`recs[0]`) if any. -/
def extract_recording_id (tv : TagValue) : Option String :=
  let recordingids := match tv with
    | .str s => [s]
    | .list ss => ss
  let recs := recordingids.filter (fun r => is_valid_uuid r)
  recs.head?

/-- How one `process_file` call ended.  The `exn` statuses are exceptions
escaping the function (no handler in `process_file`): `exnKeyError` for the
missing-tag lookup, `exnSubmit` for a non-`HTTPError` submission exception,
`exnInterrupt` for `KeyboardInterrupt` during extraction. -/
inductive Status where
  | skip
  | nombid
  | extractFail
  | unknown
  | silentNoFile
  | jsonFail
  | badmbid
  | doneOk
  | doneSubmitErr
  | exnKeyError
  | exnSubmit
  | exnInterrupt
deriving DecidableEq

/-- Exceptional statuses abort the enclosing directory walk. -/
def Status.isException : Status → Bool
  | .exnKeyError => true
  | .exnSubmit => true
  | .exnInterrupt => true
  | _ => false

/-- Result of one `process_file` call: final status, ledger state, whether the
temporary output file still exists after the call, whether the extractor was
invoked, and whether a submission POST was attempted. -/
structure PFResult where
  status : Status
  ledger : Ledger
  tmpPersists : Bool
  extracted : Bool
  submitAttempted : Bool
deriving DecidableEq

/-- `process_file` (lines 95-146).  The temp path from `mkstemp` is unlinked
immediately (lines 101-103), so the output file exists only if the extractor
wrote it.  The trailing `if os.path.isfile(tmpname): os.unlink(tmpname)`
(lines 145-146) runs on every non-exceptional path, so `tmpPersists` is false
there; on the uncaught-exception paths it is skipped. -/
def process_file (env : FileEnv) (filepath : String) (L : Ledger) : PFResult :=
  if is_processed L filepath then
    ⟨.skip, L, false, false, false⟩
  else
    let e := env.extract
    if e.interrupted then
      ⟨.exnInterrupt, L, e.wroteFile, true, false⟩
    else if e.retcode = 2 then
      ⟨.nombid, add_to_filelist L filepath (some "nombid"), false, true, false⟩
    else if e.retcode = 1 then
      ⟨.extractFail, add_to_filelist L filepath (some "extractor"), false, true, false⟩
    else if e.retcode > 0 ∨ e.retcode < 0 then
      ⟨.unknown, L, false, true, false⟩
    else
      if e.wroteFile then
        match e.content with
        | .invalidJson =>
          ⟨.jsonFail, add_to_filelist L filepath (some "json"), false, true, false⟩
        | .valid doc =>
          match doc.trackid with
          | none => ⟨.exnKeyError, L, true, true, false⟩
          | some tv =>
            match extract_recording_id tv with
            | some _ =>
              match env.submit with
              | .ok => ⟨.doneOk, add_to_filelist L filepath none, false, true, true⟩
              | .httpError _ =>
                ⟨.doneSubmitErr, add_to_filelist L filepath none, false, true, true⟩
              | .otherError => ⟨.exnSubmit, L, true, true, true⟩
            | none => ⟨.badmbid, L, false, true, false⟩
      else
        ⟨.silentNoFile, L, false, true, false⟩

/-- `process_directory` (lines 149-155), with the walk order abstracted as a
list of files each paired with its extraction/submission oracle.  An uncaught
exception from `process_file` aborts the walk (`.error`); otherwise the walk
continues past every per-file failure. -/
def process_directory (files : List (String × FileEnv)) (L : Ledger) :
    Except (List Status × Ledger) (List Status × Ledger) :=
  match files with
  | [] => .ok ([], L)
  | (fp, env) :: rest =>
    let r := process_file env fp L
    if r.status.isException then
      .error ([r.status], r.ledger)
    else
      match process_directory rest r.ledger with
      | .ok (sts, L') => .ok (r.status :: sts, L')
      | .error (sts, L') => .error (r.status :: sts, L')

/-- Server behaviour for one `POST /datasetitem/` (lines 309-322): either the
post call raises (`requests.exceptions.HTTPError`, caught at line 318), or a
response arrives with a status code, a flag telling whether its body parses
as JSON, and the `itemuuid` field of the parsed body. -/
inductive ItemPost where
  | transportError
  | response (status : Nat) (bodyParses : Bool) (itemuuid : String)
deriving DecidableEq

/-- Environment for one `submit_dataset_item` call: whether `json.load` of
the temporary file succeeds (lines 298-304), and the POST behaviour. -/
structure ItemSubmitEnv where
  fileParses : Bool
  post : ItemPost
deriving DecidableEq

/-- `submit_dataset_item` (lines 290-322).  A file that fails to parse, a
raised post, or a non-200 status each return `None` (`.ok none`).  On status
200 the response body is parsed; a body that fails to parse raises an
uncaught exception (`.error ()`) — only `HTTPError` is caught there. -/
def submit_dataset_item (env : ItemSubmitEnv) : Except Unit (Option String) :=
  if env.fileParses then
    match env.post with
    | .transportError => .ok none
    | .response status bodyParses itemuuid =>
      if status = 200 then
        if bodyParses then .ok (some itemuuid) else .error ()
      else .ok none
  else .ok none

/-- Result of `_dataset_item_extractor`: the returned temp path (as a unit
marker), the ledger, whether the temp output file exists when the function
returns, and whether it called `sys.exit(1)` after a `KeyboardInterrupt`. -/
structure DIResult where
  output : Option Unit
  ledger : Ledger
  tmpPersists : Bool
  exited : Bool
deriving DecidableEq

/-- `_dataset_item_extractor` (lines 239-274).  The temp path is unlinked
right after `mkstemp` (lines 247-249), so the output file exists only if the
extractor wrote it.  No branch of this function unlinks the output file: the
failure branches and the `KeyboardInterrupt` handler return or exit leaving
it in place whenever the extractor wrote it; the success branch hands the
path to the caller. -/
def dataset_item_extractor (e : ExtractBehavior) (filepath : String)
    (L : Ledger) : DIResult :=
  if e.interrupted then
    ⟨none, L, e.wroteFile, true⟩
  else if e.retcode = 1 then
    ⟨none, add_to_filelist L filepath (some "extractor"), e.wroteFile, false⟩
  else if e.retcode < 0 ∨ e.retcode > 0 then
    ⟨none, L, e.wroteFile, false⟩
  else if e.wroteFile then
    ⟨some (), L, true, false⟩
  else
    ⟨none, L, false, false⟩

/-- Observable external actions of the dataset pipeline: one extractor run,
one item POST. -/
inductive Action where
  | extractedItem (filepath : String)
  | submittedItem (filepath : String)
deriving DecidableEq

/-- Environment for one dataset item file. -/
structure ItemEnv where
  extract : ExtractBehavior
  submit : ItemSubmitEnv
deriving DecidableEq

/-- How a dataset walk can abort: `sys.exit(1)` on interruption, or an
uncaught exception from parsing the item-submission response body. -/
inductive Abort where
  | interrupted
  | uncaught
deriving DecidableEq

/-- Result of handling one item file inside `scan_dir`'s inner loop. -/
structure StepResult where
  newRec : Option String
  ledger : Ledger
  tmpPersists : Bool
  trace : List Action
deriving DecidableEq

/-- The body of `scan_dir`'s inner file loop (lines 216-231): run
`_dataset_item_extractor`; if it returned a path, call `submit_dataset_item`,
append the returned id (if any) to the class recordings, and unlink the temp
file whether or not an id came back.  The `submittedItem` action happens iff
the temp file parsed, since `submit_dataset_item` posts only then.  The
abort payload carries a boolean recording whether the temp output file still
exists when the walk aborts: on an uncaught response-parse exception the
`os.unlink` at line 231 is skipped, so the written file persists (`true`);
on an interrupt it persists exactly when the extractor wrote it. -/
def scan_item (env : ItemEnv) (filepath : String) (L : Ledger) :
    Except (Abort × Ledger × Bool × List Action) StepResult :=
  let d := dataset_item_extractor env.extract filepath L
  if d.exited then
    .error (.interrupted, d.ledger, d.tmpPersists, [.extractedItem filepath])
  else
    match d.output with
    | none => .ok ⟨none, d.ledger, d.tmpPersists, [.extractedItem filepath]⟩
    | some _ =>
      let tr := .extractedItem filepath ::
        (if env.submit.fileParses then [.submittedItem filepath] else [])
      match submit_dataset_item env.submit with
      | .error _ => .error (.uncaught, d.ledger, true, tr)
      | .ok r => .ok ⟨r, d.ledger, false, tr⟩

/-- The file loop of one class directory (lines 216-231), collecting the
successfully submitted item ids in order. -/
def scan_class_files (files : List (String × ItemEnv)) (L : Ledger) :
    Except (Abort × Ledger × Bool × List Action)
      (List String × Ledger × List Action) :=
  match files with
  | [] => .ok ([], L, [])
  | (fp, env) :: rest =>
    match scan_item env fp L with
    | .error e => .error e
    | .ok r =>
      match scan_class_files rest r.ledger with
      | .ok (recs, L', tr) => .ok (r.newRec.toList ++ recs, L', r.trace ++ tr)
      | .error (a, L', b, tr) => .error (a, L', b, r.trace ++ tr)

/-- One class entry of the dataset dictionary (lines 208-211). -/
structure ClassDict where
  name : String
  description : String
  recordings : List String
deriving DecidableEq

/-- The dataset dictionary (lines 284-288). -/
structure DatasetDict where
  name : String
  description : String
  public : String
  classes : List ClassDict
deriving DecidableEq

/-- `_datasetdict_structure` (lines 276-288). -/
def datasetdict_structure (dataset_name : String) : DatasetDict :=
  ⟨dataset_name, "", "true", []⟩

/-- One visited non-root directory of the walk: its base name and its files,
each paired with its oracle. -/
structure SubdirSpec where
  name : String
  files : List (String × ItemEnv)
deriving DecidableEq

/-- The directory loop of `scan_dir` (lines 204-234): each non-root directory
becomes a candidate class, appended to the dictionary only when its
recordings list is non-empty. -/
def scan_subdirs (dirs : List SubdirSpec) (L : Ledger) :
    Except (Abort × Ledger × Bool × List Action)
      (List ClassDict × Ledger × List Action) :=
  match dirs with
  | [] => .ok ([], L, [])
  | d :: rest =>
    match scan_class_files d.files L with
    | .error e => .error e
    | .ok (recs, L', tr) =>
      match scan_subdirs rest L' with
      | .error (a, L'', b, tr') => .error (a, L'', b, tr ++ tr')
      | .ok (cls, L'', tr') =>
        .ok ((if recs.length > 0 then [ClassDict.mk d.name "" recs] else []) ++ cls,
          L'', tr ++ tr')

/-- `scan_dir` (lines 190-237): build the skeleton dictionary from the root's
base name, then fill `classes` from the walk. -/
def scan_dir (dataset_name : String) (dirs : List SubdirSpec) (L : Ledger) :
    Except (Abort × Ledger × Bool × List Action)
      (DatasetDict × Ledger × List Action) :=
  match scan_subdirs dirs L with
  | .error e => .error e
  | .ok (cls, L', tr) =>
    .ok (⟨(datasetdict_structure dataset_name).name,
          (datasetdict_structure dataset_name).description,
          (datasetdict_structure dataset_name).public, cls⟩, L', tr)

/-- The id contributed by one item file, independent of the ledger: `some`
exactly when extraction succeeds (exit 0, file written, no interrupt) and
`submit_dataset_item` returns an id. -/
def item_submitted_id (env : ItemEnv) : Option String :=
  if env.extract.interrupted then none
  else if env.extract.retcode = 1 then none
  else if env.extract.retcode < 0 ∨ env.extract.retcode > 0 then none
  else if env.extract.wroteFile then
    match submit_dataset_item env.submit with
    | .ok r => r
    | .error _ => none
  else none

/-- Forget the ledger component of a `scan_dir` result, keeping the dataset
dictionary and the action trace. -/
def strip_ledger :
    Except (Abort × Ledger × Bool × List Action)
        (DatasetDict × Ledger × List Action) →
      Except (Abort × List Action) (DatasetDict × List Action)
  | .ok (dd, _, tr) => .ok (dd, tr)
  | .error (a, _, _, tr) => .error (a, tr)

/-- `true` on `.ok`: the enclosing loop proceeds to the next file. -/
def exceptIsOk {ε α : Type} : Except ε α → Bool
  | .ok _ => true
  | .error _ => false

/-- Forget the ledger component of a `scan_item` result. -/
def stepStrip :
    Except (Abort × Ledger × Bool × List Action) StepResult →
      Except (Abort × List Action) (Option String × Bool × List Action)
  | .ok r => .ok (r.newRec, r.tmpPersists, r.trace)
  | .error (a, _, _, tr) => .error (a, tr)

/-- Forget the ledger component of a `scan_class_files` result. -/
def classStrip :
    Except (Abort × Ledger × Bool × List Action)
        (List String × Ledger × List Action) →
      Except (Abort × List Action) (List String × List Action)
  | .ok (recs, _, tr) => .ok (recs, tr)
  | .error (a, _, _, tr) => .error (a, tr)

/-- Forget the ledger component of a `scan_subdirs` result. -/
def subdirsStrip :
    Except (Abort × Ledger × Bool × List Action)
        (List ClassDict × Ledger × List Action) →
      Except (Abort × List Action) (List ClassDict × List Action)
  | .ok (cls, _, tr) => .ok (cls, tr)
  | .error (a, _, _, tr) => .error (a, tr)

instance {ε α : Type} [DecidableEq ε] [DecidableEq α] :
    DecidableEq (Except ε α) := fun x y =>
  match x, y with
  | .ok a, .ok b =>
    if h : a = b then .isTrue (by rw [h]) else .isFalse (by simp [h])
  | .error a, .error b =>
    if h : a = b then .isTrue (by rw [h]) else .isFalse (by simp [h])
  | .ok _, .error _ => .isFalse (by simp)
  | .error _, .ok _ => .isFalse (by simp)

/-! Helper lemmas shared by the claim theorems. -/

lemma process_file_of_processed (env : FileEnv) (fp : String) (L : Ledger)
    (h : is_processed L fp = true) :
    process_file env fp L = ⟨.skip, L, false, false, false⟩ := by
  simp [process_file, h]

lemma is_processed_add_self (L : Ledger) (fp : String) (r : Option String) :
    is_processed (add_to_filelist L fp r) fp = true := by
  simp [is_processed, add_to_filelist]

lemma head?_filter_eq_find? {α : Type} (p : α → Bool) (l : List α) :
    (l.filter p).head? = l.find? p := by
  induction l with
  | nil => rfl
  | cons a t ih =>
    by_cases h : p a = true
    · simp [List.filter_cons, List.find?_cons, h]
    · simp only [Bool.not_eq_true] at h
      simp [List.filter_cons, List.find?_cons, h, ih]

/-! Claim theorems. -/

/-- C1: for every file path that already has at least one ledger entry (any
reason), `process_file` on that path performs no extraction, no submission,
and no ledger write: it returns immediately as a skip with no side effects. -/
theorem process_file_skips_ledgered (env : FileEnv) (fp : String) (L : Ledger)
    (h : is_processed L fp = true) :
    process_file env fp L = ⟨.skip, L, false, false, false⟩ :=
  process_file_of_processed env fp L h

theorem process_file_skips_ledgered_witness :
    is_processed ⟨[⟨"a.mp3", some "extractor"⟩]⟩ "a.mp3" = true ∧
    process_file ⟨⟨0, false, .invalidJson, false⟩, .ok⟩ "a.mp3"
        ⟨[⟨"a.mp3", some "extractor"⟩]⟩ =
      ⟨.skip, ⟨[⟨"a.mp3", some "extractor"⟩]⟩, false, false, false⟩ :=
  ⟨by decide,
    process_file_skips_ledgered ⟨⟨0, false, .invalidJson, false⟩, .ok⟩ "a.mp3"
      ⟨[⟨"a.mp3", some "extractor"⟩]⟩ (by decide)⟩

/-- C2: when the submission POST fails with an `HTTPError`, `process_file`
reports the error but still records a ledger success entry (reason absent),
so the file is marked processed. -/
theorem process_file_http_error_still_marks_done
    (env : FileEnv) (fp : String) (L : Ledger) (doc : FeatureDoc)
    (tv : TagValue) (body : String)
    (hnp : is_processed L fp = false)
    (hni : env.extract.interrupted = false)
    (hrc : env.extract.retcode = 0)
    (hwf : env.extract.wroteFile = true)
    (hct : env.extract.content = .valid doc)
    (htv : doc.trackid = some tv)
    (hid : (extract_recording_id tv).isSome = true)
    (hsub : env.submit = .httpError body) :
    (process_file env fp L).status = .doneSubmitErr ∧
    (process_file env fp L).ledger = add_to_filelist L fp none ∧
    is_processed (process_file env fp L).ledger fp = true := by
  obtain ⟨rid, hrid⟩ := Option.isSome_iff_exists.mp hid
  simp [process_file, hnp, hni, hrc, hwf, hct, htv, hrid, hsub,
    is_processed_add_self]

theorem process_file_http_error_still_marks_done_witness :
    (is_processed ⟨[]⟩ "a.mp3" = false ∧
      (extract_recording_id
        (.str "123e4567-e89b-12d3-a456-426614174000")).isSome = true) ∧
    ((process_file
        ⟨⟨0, true,
            .valid ⟨some (.str "123e4567-e89b-12d3-a456-426614174000")⟩,
            false⟩,
          .httpError "bad"⟩ "a.mp3" ⟨[]⟩).status = .doneSubmitErr ∧
      (process_file
        ⟨⟨0, true,
            .valid ⟨some (.str "123e4567-e89b-12d3-a456-426614174000")⟩,
            false⟩,
          .httpError "bad"⟩ "a.mp3" ⟨[]⟩).ledger =
        add_to_filelist ⟨[]⟩ "a.mp3" none ∧
      is_processed
        (process_file
          ⟨⟨0, true,
              .valid ⟨some (.str "123e4567-e89b-12d3-a456-426614174000")⟩,
              false⟩,
            .httpError "bad"⟩ "a.mp3" ⟨[]⟩).ledger "a.mp3" = true) :=
  ⟨⟨by decide, by decide⟩,
    process_file_http_error_still_marks_done
      ⟨⟨0, true,
          .valid ⟨some (.str "123e4567-e89b-12d3-a456-426614174000")⟩,
          false⟩,
        .httpError "bad"⟩ "a.mp3" ⟨[]⟩
      ⟨some (.str "123e4567-e89b-12d3-a456-426614174000")⟩
      (.str "123e4567-e89b-12d3-a456-426614174000") "bad"
      (by decide) rfl rfl rfl rfl rfl (by decide) rfl⟩

/-- C6: identifier extraction treats the tag value as a single string or a
list of strings, filters to the entries that parse as UUIDs, and picks the
first valid entry in original order; on the spec's example list the valid
UUID is selected. -/
theorem extract_recording_id_first_valid_uuid :
    (∀ ss : List String,
      extract_recording_id (.list ss) = ss.find? (fun r => is_valid_uuid r)) ∧
    (∀ s : String,
      extract_recording_id (.str s) =
        if is_valid_uuid s then some s else none) ∧
    extract_recording_id
        (.list ["not-a-uuid", "123e4567-e89b-12d3-a456-426614174000"]) =
      some "123e4567-e89b-12d3-a456-426614174000" := by
  refine ⟨fun ss => ?_, fun s => ?_, by decide⟩
  · simp [extract_recording_id, head?_filter_eq_find?]
  · by_cases h : is_valid_uuid s = true
    · simp [extract_recording_id, List.filter_cons, h]
    · simp only [Bool.not_eq_true] at h
      simp [extract_recording_id, List.filter_cons, h]

lemma process_file_shape (env : FileEnv) (fp : String) (L : Ledger)
    (hnp : is_processed L fp = false) :
    (process_file env fp L).extracted = true ∧
    (process_file env fp L).status ≠ .skip ∧
    (((process_file env fp L).status).isException = false →
      (process_file env fp L).tmpPersists = false) := by
  by_cases hi : env.extract.interrupted
  · simp [process_file, hnp, hi, Status.isException]
  · by_cases h2 : env.extract.retcode = 2
    · simp [process_file, hnp, hi, h2, Status.isException]
    · by_cases h1 : env.extract.retcode = 1
      · simp [process_file, hnp, hi, h2, h1, Status.isException]
      · by_cases h0 : env.extract.retcode = 0
        · have hz : ¬(env.extract.retcode > 0 ∨ env.extract.retcode < 0) := by
            omega
          by_cases hw : env.extract.wroteFile
          · cases hc : env.extract.content with
            | invalidJson =>
              simp [process_file, hnp, hi, h2, h1, hz, hw, hc,
                Status.isException]
            | valid doc =>
              cases ht : doc.trackid with
              | none =>
                simp [process_file, hnp, hi, h2, h1, hz, hw, hc, ht,
                  Status.isException]
              | some tv =>
                cases hr : extract_recording_id tv with
                | none =>
                  simp [process_file, hnp, hi, h2, h1, hz, hw, hc, ht, hr,
                    Status.isException]
                | some rid =>
                  cases hs : env.submit with
                  | ok =>
                    simp [process_file, hnp, hi, h2, h1, hz, hw, hc, ht, hr,
                      hs, Status.isException]
                  | httpError b =>
                    simp [process_file, hnp, hi, h2, h1, hz, hw, hc, ht, hr,
                      hs, Status.isException]
                  | otherError =>
                    simp [process_file, hnp, hi, h2, h1, hz, hw, hc, ht, hr,
                      hs, Status.isException]
          · simp [process_file, hnp, hi, h2, h1, hz, hw, Status.isException]
        · have hz : env.extract.retcode > 0 ∨ env.extract.retcode < 0 := by
            omega
          simp [process_file, hnp, hi, h2, h1, hz, Status.isException]

/-- C7: when the located tag yields no entry that parses as a valid UUID,
`process_file` stops with no ledger write and no submission, and the
directory walk continues to the next file. -/
theorem process_file_badmbid_no_ledger
    (env : FileEnv) (fp : String) (L : Ledger) (doc : FeatureDoc)
    (tv : TagValue) (rest : List (String × FileEnv))
    (hnp : is_processed L fp = false)
    (hni : env.extract.interrupted = false)
    (hrc : env.extract.retcode = 0)
    (hwf : env.extract.wroteFile = true)
    (hct : env.extract.content = .valid doc)
    (htv : doc.trackid = some tv)
    (hid : extract_recording_id tv = none) :
    process_file env fp L = ⟨.badmbid, L, false, true, false⟩ ∧
    process_directory ((fp, env) :: rest) L =
      (match process_directory rest L with
       | .ok (sts, L') => .ok (.badmbid :: sts, L')
       | .error (sts, L') => .error (.badmbid :: sts, L')) := by
  have h1 : process_file env fp L = ⟨.badmbid, L, false, true, false⟩ := by
    simp [process_file, hnp, hni, hrc, hwf, hct, htv, hid]
  refine ⟨h1, ?_⟩
  cases hrest : process_directory rest L with
  | ok p =>
    obtain ⟨sts, L'⟩ := p
    simp [process_directory, h1, Status.isException, hrest]
  | error p =>
    obtain ⟨sts, L'⟩ := p
    simp [process_directory, h1, Status.isException, hrest]

theorem process_file_badmbid_no_ledger_witness :
    (is_processed ⟨[]⟩ "a.mp3" = false ∧
      extract_recording_id (.str "not-a-uuid") = none) ∧
    (process_file ⟨⟨0, true, .valid ⟨some (.str "not-a-uuid")⟩, false⟩, .ok⟩
        "a.mp3" ⟨[]⟩ = ⟨.badmbid, ⟨[]⟩, false, true, false⟩ ∧
      process_directory
          [("a.mp3", ⟨⟨0, true, .valid ⟨some (.str "not-a-uuid")⟩, false⟩, .ok⟩)]
          ⟨[]⟩ =
        (match process_directory [] (⟨[]⟩ : Ledger) with
         | .ok (sts, L') => .ok (.badmbid :: sts, L')
         | .error (sts, L') => .error (.badmbid :: sts, L'))) :=
  ⟨⟨by decide, by decide⟩,
    process_file_badmbid_no_ledger
      ⟨⟨0, true, .valid ⟨some (.str "not-a-uuid")⟩, false⟩, .ok⟩ "a.mp3" ⟨[]⟩
      ⟨some (.str "not-a-uuid")⟩ (.str "not-a-uuid") []
      (by decide) rfl rfl rfl rfl rfl (by decide)⟩

/-- C8: for every extractor exit code not in 0, 1, 2, no ledger entry is
written, so the file stays eligible for reprocessing: a later run on the
unchanged ledger does not skip it and invokes the extractor again. -/
theorem process_file_unknown_code_no_ledger
    (env env' : FileEnv) (fp : String) (L : Ledger)
    (hnp : is_processed L fp = false)
    (hni : env.extract.interrupted = false)
    (h0 : env.extract.retcode ≠ 0)
    (h1 : env.extract.retcode ≠ 1)
    (h2 : env.extract.retcode ≠ 2) :
    process_file env fp L = ⟨.unknown, L, false, true, false⟩ ∧
    (process_file env' fp L).status ≠ .skip ∧
    (process_file env' fp L).extracted = true := by
  have hgt : env.extract.retcode > 0 ∨ env.extract.retcode < 0 := by omega
  obtain ⟨he, hs, -⟩ := process_file_shape env' fp L hnp
  exact ⟨by simp [process_file, hnp, hni, h1, h2, hgt], hs, he⟩

theorem process_file_unknown_code_no_ledger_witness :
    (is_processed ⟨[]⟩ "a.mp3" = false ∧ (-6 : Int) ≠ 0 ∧ (-6 : Int) ≠ 1 ∧
      (-6 : Int) ≠ 2) ∧
    (process_file ⟨⟨-6, false, .invalidJson, false⟩, .ok⟩ "a.mp3" ⟨[]⟩ =
        ⟨.unknown, ⟨[]⟩, false, true, false⟩ ∧
      (process_file ⟨⟨0, false, .invalidJson, false⟩, .ok⟩ "a.mp3"
          ⟨[]⟩).status ≠ .skip ∧
      (process_file ⟨⟨0, false, .invalidJson, false⟩, .ok⟩ "a.mp3"
          ⟨[]⟩).extracted = true) :=
  ⟨⟨by decide, by decide, by decide, by decide⟩,
    process_file_unknown_code_no_ledger
      ⟨⟨-6, false, .invalidJson, false⟩, .ok⟩
      ⟨⟨0, false, .invalidJson, false⟩, .ok⟩ "a.mp3" ⟨[]⟩
      (by decide) rfl (by decide) (by decide) (by decide)⟩

/-- C3 counterexample: extractor exit 0 wrote the output file, the JSON
parses, but the `musicbrainz_trackid` key path is absent, so the lookup
raises an uncaught `KeyError`; the final unlink is skipped and the temporary
file persists after `process_file` returns. -/
theorem tmpfile_persists_counterexample :
    (process_file ⟨⟨0, true, .valid ⟨none⟩, false⟩, .ok⟩ "a.mp3"
        ⟨[]⟩).tmpPersists = true ∧
    (process_file ⟨⟨0, true, .valid ⟨none⟩, false⟩, .ok⟩ "a.mp3"
        ⟨[]⟩).status = .exnKeyError := by
  decide

lemma process_file_tmp_of_not_exception (env : FileEnv) (fp : String)
    (L : Ledger)
    (h : ((process_file env fp L).status).isException = false) :
    (process_file env fp L).tmpPersists = false := by
  by_cases hp : is_processed L fp
  · simp [process_file, hp]
  · simp only [Bool.not_eq_true] at hp
    exact (process_file_shape env fp L hp).2.2 h

/-- C3 amended: the temporary file is removed before return on every
non-exceptional exit of `process_file`, and in the dataset pipeline the
per-item handling deletes it whenever extraction succeeded and
`submit_dataset_item` returned normally (with or without an id); but it
persists when an unhandled exception or interruption escapes `process_file`,
when the dataset-item extractor fails after writing output, and on the
uncaught exception raised by a status-200 item-submission response whose
body fails to parse, which skips the caller's unlink. -/
theorem tmpfile_removed_on_handled_paths
    (env : FileEnv) (fp : String) (L : Ledger)
    (ienv : ItemEnv) (fp2 : String) (L2 : Ledger) (r : StepResult)
    (ienv' : ItemEnv) (fp3 : String) (L3 L4 : Ledger) (b : Bool)
    (tr : List Action)
    (hpf : ((process_file env fp L).status).isException = false)
    (hsi : scan_item ienv fp2 L2 = .ok r)
    (hout : (dataset_item_extractor ienv.extract fp2 L2).output.isSome = true)
    (hun : scan_item ienv' fp3 L3 = .error (.uncaught, L4, b, tr)) :
    (process_file env fp L).tmpPersists = false ∧ r.tmpPersists = false ∧
    b = true := by
  refine ⟨process_file_tmp_of_not_exception env fp L hpf, ?_, ?_⟩
  · obtain ⟨u, hu⟩ := Option.isSome_iff_exists.mp hout
    by_cases he : (dataset_item_extractor ienv.extract fp2 L2).exited
    · simp [scan_item, he] at hsi
    · simp only [Bool.not_eq_true] at he
      cases hs : submit_dataset_item ienv.submit with
      | error e => simp [scan_item, he, hu, hs] at hsi
      | ok v =>
        simp [scan_item, he, hu, hs] at hsi
        simp [← hsi]
  · by_cases he : (dataset_item_extractor ienv'.extract fp3 L3).exited
    · simp [scan_item, he] at hun
    · simp only [Bool.not_eq_true] at he
      cases ho : (dataset_item_extractor ienv'.extract fp3 L3).output with
      | none => simp [scan_item, he, ho] at hun
      | some u =>
        cases hs : submit_dataset_item ienv'.submit with
        | ok v => simp [scan_item, he, ho, hs] at hun
        | error e =>
          simp [scan_item, he, ho, hs] at hun
          exact hun.2.1

theorem tmpfile_removed_on_handled_paths_witness :
    (((process_file ⟨⟨0, true, .invalidJson, false⟩, .ok⟩ "a.mp3"
          ⟨[]⟩).status).isException = false ∧
      scan_item ⟨⟨0, true, .invalidJson, false⟩, ⟨true, .response 200 true "u1"⟩⟩
          "b.mp3" ⟨[]⟩ =
        .ok ⟨some "u1", ⟨[]⟩, false,
          [.extractedItem "b.mp3", .submittedItem "b.mp3"]⟩ ∧
      (dataset_item_extractor ⟨0, true, .invalidJson, false⟩ "b.mp3"
          ⟨[]⟩).output.isSome = true ∧
      scan_item ⟨⟨0, true, .invalidJson, false⟩, ⟨true, .response 200 false "u2"⟩⟩
          "e.mp3" ⟨[]⟩ =
        .error (.uncaught, ⟨[]⟩, true,
          [.extractedItem "e.mp3", .submittedItem "e.mp3"])) ∧
    ((process_file ⟨⟨0, true, .invalidJson, false⟩, .ok⟩ "a.mp3"
        ⟨[]⟩).tmpPersists = false ∧
      (StepResult.mk (some "u1") ⟨[]⟩ false
        [.extractedItem "b.mp3", .submittedItem "b.mp3"]).tmpPersists = false ∧
      (true : Bool) = true) :=
  ⟨⟨by decide, by decide, by decide, by decide⟩,
    tmpfile_removed_on_handled_paths
      ⟨⟨0, true, .invalidJson, false⟩, .ok⟩ "a.mp3" ⟨[]⟩
      ⟨⟨0, true, .invalidJson, false⟩, ⟨true, .response 200 true "u1"⟩⟩ "b.mp3"
      ⟨[]⟩
      ⟨some "u1", ⟨[]⟩, false, [.extractedItem "b.mp3", .submittedItem "b.mp3"]⟩
      ⟨⟨0, true, .invalidJson, false⟩, ⟨true, .response 200 false "u2"⟩⟩ "e.mp3"
      ⟨[]⟩ ⟨[]⟩ true
      [.extractedItem "e.mp3", .submittedItem "e.mp3"]
      (by decide) (by decide) (by decide) (by decide)⟩

/-- C5 counterexample: dataset-item extraction with exit code 1 where the
extractor wrote the output file.  Contrary to the claim, a ledger entry with
reason extractor IS recorded and the temporary file is NOT deleted. -/
theorem dataset_extract_failure_counterexample :
    dataset_item_extractor ⟨1, true, .invalidJson, false⟩ "b.mp3" ⟨[]⟩ =
      ⟨none, ⟨[⟨"b.mp3", some "extractor"⟩]⟩, true, false⟩ ∧
    (dataset_item_extractor ⟨1, true, .invalidJson, false⟩ "b.mp3"
        ⟨[]⟩).ledger ≠ (⟨[]⟩ : Ledger) ∧
    (dataset_item_extractor ⟨1, true, .invalidJson, false⟩ "b.mp3"
        ⟨[]⟩).tmpPersists = true := by
  decide

/-- C5 amended: on extractor exit 1 a ledger entry with reason extractor is
recorded and the temporary file is not deleted (it persists whenever the
extractor wrote it); on any other non-zero exit code nothing is recorded but
the temporary file likewise persists if written; on item-submission failure
after a successful extraction the temporary file is deleted and nothing is
recorded; in every one of these cases the function returns normally, so
processing moves on to the next file. -/
theorem dataset_failure_cleanup_amended
    (e e' : ExtractBehavior) (ienv : ItemEnv) (fp fp' fp2 : String)
    (L L'' L2 : Ledger)
    (hni : e.interrupted = false) (h1 : e.retcode = 1)
    (hni' : e'.interrupted = false) (h0' : e'.retcode ≠ 0)
    (h1' : e'.retcode ≠ 1)
    (hni2 : ienv.extract.interrupted = false)
    (hrc2 : ienv.extract.retcode = 0)
    (hwf2 : ienv.extract.wroteFile = true)
    (hsub : submit_dataset_item ienv.submit = .ok none) :
    dataset_item_extractor e fp L =
      ⟨none, add_to_filelist L fp (some "extractor"), e.wroteFile, false⟩ ∧
    dataset_item_extractor e' fp' L'' = ⟨none, L'', e'.wroteFile, false⟩ ∧
    scan_item ienv fp2 L2 =
      .ok ⟨none, L2, false,
        .extractedItem fp2 ::
          (if ienv.submit.fileParses then [.submittedItem fp2] else [])⟩ := by
  have hz' : e'.retcode < 0 ∨ e'.retcode > 0 := by omega
  refine ⟨by simp [dataset_item_extractor, hni, h1],
    by simp [dataset_item_extractor, hni', h1', hz'], ?_⟩
  simp [scan_item, dataset_item_extractor, hni2, hrc2, hwf2, hsub]

theorem dataset_failure_cleanup_amended_witness :
    ((1 : Int) = 1 ∧ (3 : Int) ≠ 0 ∧ (3 : Int) ≠ 1 ∧
      submit_dataset_item ⟨true, .response 404 true "u"⟩ = .ok none) ∧
    (dataset_item_extractor ⟨1, true, .invalidJson, false⟩ "b.mp3" ⟨[]⟩ =
        ⟨none, add_to_filelist ⟨[]⟩ "b.mp3" (some "extractor"), true, false⟩ ∧
      dataset_item_extractor ⟨3, true, .invalidJson, false⟩ "c.mp3" ⟨[]⟩ =
        ⟨none, ⟨[]⟩, true, false⟩ ∧
      scan_item ⟨⟨0, true, .invalidJson, false⟩, ⟨true, .response 404 true "u"⟩⟩
          "d.mp3" ⟨[]⟩ =
        .ok ⟨none, ⟨[]⟩, false,
          .extractedItem "d.mp3" ::
            (if (ItemSubmitEnv.mk true (.response 404 true "u")).fileParses then
              [.submittedItem "d.mp3"]
            else [])⟩) :=
  ⟨⟨rfl, by decide, by decide, by decide⟩,
    dataset_failure_cleanup_amended
      ⟨1, true, .invalidJson, false⟩ ⟨3, true, .invalidJson, false⟩
      ⟨⟨0, true, .invalidJson, false⟩, ⟨true, .response 404 true "u"⟩⟩
      "b.mp3" "c.mp3" "d.mp3" ⟨[]⟩ ⟨[]⟩ ⟨[]⟩
      rfl rfl rfl (by decide) (by decide) rfl rfl rfl (by decide)⟩

lemma dataset_item_extractor_not_exited (e : ExtractBehavior) (fp : String)
    (L : Ledger) (hni : e.interrupted = false) :
    (dataset_item_extractor e fp L).exited = false := by
  by_cases h1 : e.retcode = 1
  · simp [dataset_item_extractor, hni, h1]
  · by_cases h0 : e.retcode = 0
    · have hz : ¬(e.retcode < 0 ∨ e.retcode > 0) := by omega
      by_cases hw : e.wroteFile <;> simp [dataset_item_extractor, hni, h1, hz, hw]
    · have hz : e.retcode < 0 ∨ e.retcode > 0 := by omega
      simp [dataset_item_extractor, hni, h1, hz]

/-- C9: `submit_dataset_item` returns an item identifier iff the server's
response status is exactly 200 and the response body parses; any other
status, or a transport error, yields none, and the enclosing per-item loop
proceeds without failing the run. -/
theorem submit_dataset_item_success_iff_200
    (env env' : ItemSubmitEnv) (status : Nat) (bodyParses : Bool)
    (uuid : String) (ex : ExtractBehavior) (fp : String) (L : Ledger)
    (hfp : env.fileParses = true)
    (hpost : env.post = .response status bodyParses uuid)
    (htr : env'.post = .transportError)
    (hni : ex.interrupted = false) :
    (submit_dataset_item env = .ok (some uuid) ↔
      (status = 200 ∧ bodyParses = true)) ∧
    (status ≠ 200 → submit_dataset_item env = .ok none) ∧
    submit_dataset_item env' = .ok none ∧
    exceptIsOk (scan_item ⟨ex, env'⟩ fp L) = true := by
  have h3 : submit_dataset_item env' = .ok none := by
    by_cases hf : env'.fileParses <;> simp [submit_dataset_item, hf, htr]
  refine ⟨?_, ?_, h3, ?_⟩
  · by_cases hs : status = 200
    · by_cases hb : bodyParses = true
      · simp [submit_dataset_item, hfp, hpost, hs, hb]
      · simp only [Bool.not_eq_true] at hb
        simp [submit_dataset_item, hfp, hpost, hs, hb]
    · simp [submit_dataset_item, hfp, hpost, hs]
  · intro hs
    simp [submit_dataset_item, hfp, hpost, hs]
  · have hex := dataset_item_extractor_not_exited ex fp L hni
    cases ho : (dataset_item_extractor ex fp L).output with
    | none => simp [scan_item, hex, ho, exceptIsOk]
    | some u => simp [scan_item, hex, ho, h3, exceptIsOk]

theorem submit_dataset_item_success_iff_200_witness :
    ((ItemSubmitEnv.mk true (.response 200 true "u1")).fileParses = true) ∧
    ((submit_dataset_item ⟨true, .response 200 true "u1"⟩ = .ok (some "u1") ↔
        ((200 : Nat) = 200 ∧ true = true)) ∧
      ((200 : Nat) ≠ 200 →
        submit_dataset_item ⟨true, .response 200 true "u1"⟩ = .ok none) ∧
      submit_dataset_item ⟨true, .transportError⟩ = .ok none ∧
      exceptIsOk
        (scan_item ⟨⟨0, true, .invalidJson, false⟩, ⟨true, .transportError⟩⟩
          "c.mp3" ⟨[]⟩) = true) :=
  ⟨by decide,
    submit_dataset_item_success_iff_200 ⟨true, .response 200 true "u1"⟩
      ⟨true, .transportError⟩ 200 true "u1" ⟨0, true, .invalidJson, false⟩
      "c.mp3" ⟨[]⟩ rfl rfl rfl rfl⟩

lemma scan_item_ok_newRec (env : ItemEnv) (fp : String) (L : Ledger)
    (r : StepResult) (h : scan_item env fp L = .ok r) :
    r.newRec = item_submitted_id env := by
  by_cases hi : env.extract.interrupted
  · simp [scan_item, dataset_item_extractor, hi] at h
  · by_cases h1 : env.extract.retcode = 1
    · simp [scan_item, dataset_item_extractor, hi, h1] at h
      subst h
      simp [item_submitted_id, hi, h1]
    · by_cases h0 : env.extract.retcode = 0
      · have hz : ¬(env.extract.retcode < 0 ∨ env.extract.retcode > 0) := by
          omega
        by_cases hw : env.extract.wroteFile
        · cases hs : submit_dataset_item env.submit with
          | error e =>
            simp [scan_item, dataset_item_extractor, hi, h1, hz, hw, hs] at h
          | ok v =>
            simp [scan_item, dataset_item_extractor, hi, h1, hz, hw, hs] at h
            subst h
            simp [item_submitted_id, hi, h1, hz, hw, hs]
        · simp [scan_item, dataset_item_extractor, hi, h1, hz, hw] at h
          subst h
          simp [item_submitted_id, hi, h1, hz, hw]
      · have hz : env.extract.retcode < 0 ∨ env.extract.retcode > 0 := by
          omega
        simp [scan_item, dataset_item_extractor, hi, h1, hz] at h
        subst h
        simp [item_submitted_id, hi, h1, hz]

lemma scan_class_files_ok_recs (files : List (String × ItemEnv)) (L : Ledger)
    (recs : List String) (L' : Ledger) (tr : List Action)
    (h : scan_class_files files L = .ok (recs, L', tr)) :
    recs = files.filterMap (fun p => item_submitted_id p.2) := by
  induction files generalizing L recs L' tr with
  | nil =>
    simp only [scan_class_files, Except.ok.injEq, Prod.mk.injEq] at h
    simp [← h.1]
  | cons hd t ih =>
    obtain ⟨fp, env⟩ := hd
    simp only [scan_class_files] at h
    cases hsi : scan_item env fp L with
    | error e => simp [hsi] at h
    | ok r =>
      simp only [hsi] at h
      cases hrest : scan_class_files t r.ledger with
      | error e => simp [hrest] at h
      | ok p =>
        obtain ⟨recs2, L2, tr2⟩ := p
        simp only [hrest, Except.ok.injEq, Prod.mk.injEq] at h
        obtain ⟨h1, h2, h3⟩ := h
        subst h1
        have hn := scan_item_ok_newRec env fp L r hsi
        have ht2 := ih r.ledger recs2 L2 tr2 hrest
        subst ht2
        cases hcase : item_submitted_id env with
        | none => simp [List.filterMap_cons, hcase, hn]
        | some u => simp [List.filterMap_cons, hcase, hn]

lemma scan_subdirs_ok_classes (dirs : List SubdirSpec) (L : Ledger)
    (cls : List ClassDict) (L' : Ledger) (tr : List Action)
    (h : scan_subdirs dirs L = .ok (cls, L', tr)) :
    cls = dirs.filterMap (fun d =>
      if (d.files.filterMap (fun p => item_submitted_id p.2)).length > 0 then
        some (ClassDict.mk d.name ""
          (d.files.filterMap (fun p => item_submitted_id p.2)))
      else none) := by
  induction dirs generalizing L cls L' tr with
  | nil =>
    simp only [scan_subdirs, Except.ok.injEq, Prod.mk.injEq] at h
    simp [← h.1]
  | cons d t ih =>
    simp only [scan_subdirs] at h
    cases hc : scan_class_files d.files L with
    | error e => simp [hc] at h
    | ok p =>
      obtain ⟨recs, L1, tr1⟩ := p
      simp only [hc] at h
      cases hrest : scan_subdirs t L1 with
      | error e => simp [hrest] at h
      | ok q =>
        obtain ⟨cls2, L2, tr2⟩ := q
        simp only [hrest, Except.ok.injEq, Prod.mk.injEq] at h
        obtain ⟨h1, h2, h3⟩ := h
        subst h1
        have hr := scan_class_files_ok_recs d.files L recs L1 tr1 hc
        subst hr
        have hcls := ih L1 cls2 L2 tr2 hrest
        subst hcls
        by_cases hlen :
          (d.files.filterMap (fun p => item_submitted_id p.2)).length > 0
        · simp [List.filterMap_cons, hlen]
        · simp [List.filterMap_cons, hlen]

/-- C4: for every dataset directory walk that completes, a class entry for a
subdirectory appears in the manifest's classes exactly when at least one of
its files yielded a successfully-submitted item id, and it carries precisely
those ids; subdirectories with zero successful items contribute no entry. -/
theorem scan_dir_classes_iff_success
    (dataset_name : String) (dirs : List SubdirSpec) (L L' : Ledger)
    (dd : DatasetDict) (tr : List Action)
    (h : scan_dir dataset_name dirs L = .ok (dd, L', tr)) :
    dd.classes = dirs.filterMap (fun d =>
      if (d.files.filterMap (fun p => item_submitted_id p.2)).length > 0 then
        some (ClassDict.mk d.name ""
          (d.files.filterMap (fun p => item_submitted_id p.2)))
      else none) := by
  simp only [scan_dir] at h
  cases hs : scan_subdirs dirs L with
  | error e => simp [hs] at h
  | ok p =>
    obtain ⟨cls, L1, tr1⟩ := p
    simp only [hs, Except.ok.injEq, Prod.mk.injEq] at h
    obtain ⟨h1, h2, h3⟩ := h
    have hc := scan_subdirs_ok_classes dirs L cls L1 tr1 hs
    subst h1
    simpa using hc

theorem scan_dir_classes_iff_success_witness :
    (scan_dir "ds"
        [⟨"rock", [("r1.mp3",
            ⟨⟨0, true, .invalidJson, false⟩, ⟨true, .response 200 true "u1"⟩⟩)]⟩,
          ⟨"jazz", [("j1.mp3",
            ⟨⟨1, false, .invalidJson, false⟩,
              ⟨true, .response 200 true "u2"⟩⟩)]⟩]
        ⟨[]⟩ =
      .ok (⟨"ds", "", "true", [⟨"rock", "", ["u1"]⟩]⟩,
        ⟨[⟨"j1.mp3", some "extractor"⟩]⟩,
        [.extractedItem "r1.mp3", .submittedItem "r1.mp3",
          .extractedItem "j1.mp3"])) ∧
    (DatasetDict.mk "ds" "" "true" [⟨"rock", "", ["u1"]⟩]).classes =
      ([⟨"rock", [("r1.mp3",
          ⟨⟨0, true, .invalidJson, false⟩, ⟨true, .response 200 true "u1"⟩⟩)]⟩,
        ⟨"jazz", [("j1.mp3",
          ⟨⟨1, false, .invalidJson, false⟩,
            ⟨true, .response 200 true "u2"⟩⟩)]⟩] :
          List SubdirSpec).filterMap (fun d =>
        if (d.files.filterMap (fun p => item_submitted_id p.2)).length > 0 then
          some (ClassDict.mk d.name ""
            (d.files.filterMap (fun p => item_submitted_id p.2)))
        else none) :=
  ⟨by decide,
    scan_dir_classes_iff_success "ds"
      [⟨"rock", [("r1.mp3",
          ⟨⟨0, true, .invalidJson, false⟩, ⟨true, .response 200 true "u1"⟩⟩)]⟩,
        ⟨"jazz", [("j1.mp3",
          ⟨⟨1, false, .invalidJson, false⟩,
            ⟨true, .response 200 true "u2"⟩⟩)]⟩]
      ⟨[]⟩ ⟨[⟨"j1.mp3", some "extractor"⟩]⟩
      ⟨"ds", "", "true", [⟨"rock", "", ["u1"]⟩]⟩
      [.extractedItem "r1.mp3", .submittedItem "r1.mp3",
        .extractedItem "j1.mp3"]
      (by decide)⟩

lemma scan_item_strip (env : ItemEnv) (fp : String) (L1 L2 : Ledger) :
    stepStrip (scan_item env fp L1) = stepStrip (scan_item env fp L2) := by
  by_cases hi : env.extract.interrupted
  · simp [scan_item, dataset_item_extractor, hi, stepStrip]
  · by_cases h1 : env.extract.retcode = 1
    · simp [scan_item, dataset_item_extractor, hi, h1, stepStrip]
    · by_cases h0 : env.extract.retcode = 0
      · have hz : ¬(env.extract.retcode < 0 ∨ env.extract.retcode > 0) := by
          omega
        by_cases hw : env.extract.wroteFile
        · cases hs : submit_dataset_item env.submit with
          | error e =>
            simp [scan_item, dataset_item_extractor, hi, h1, hz, hw, hs,
              stepStrip]
          | ok v =>
            simp [scan_item, dataset_item_extractor, hi, h1, hz, hw, hs,
              stepStrip]
        · simp [scan_item, dataset_item_extractor, hi, h1, hz, hw, stepStrip]
      · have hz : env.extract.retcode < 0 ∨ env.extract.retcode > 0 := by
          omega
        simp [scan_item, dataset_item_extractor, hi, h1, hz, stepStrip]

lemma scan_class_files_strip (files : List (String × ItemEnv))
    (L1 L2 : Ledger) :
    classStrip (scan_class_files files L1) =
      classStrip (scan_class_files files L2) := by
  induction files generalizing L1 L2 with
  | nil => rfl
  | cons hd t ih =>
    obtain ⟨fp, env⟩ := hd
    have hstep := scan_item_strip env fp L1 L2
    simp only [scan_class_files]
    cases hs1 : scan_item env fp L1 with
    | error e1 =>
      cases hs2 : scan_item env fp L2 with
      | error e2 =>
        obtain ⟨a1, l1, b1, t1⟩ := e1
        obtain ⟨a2, l2, b2, t2⟩ := e2
        rw [hs1, hs2] at hstep
        simp only [stepStrip, Except.error.injEq, Prod.mk.injEq] at hstep
        simp [classStrip, hstep.1, hstep.2]
      | ok r2 =>
        rw [hs1, hs2] at hstep
        obtain ⟨a1, l1, b1, t1⟩ := e1
        simp [stepStrip] at hstep
    | ok r1 =>
      cases hs2 : scan_item env fp L2 with
      | error e2 =>
        rw [hs1, hs2] at hstep
        obtain ⟨a2, l2, b2, t2⟩ := e2
        simp [stepStrip] at hstep
      | ok r2 =>
        rw [hs1, hs2] at hstep
        simp only [stepStrip, Except.ok.injEq, Prod.mk.injEq] at hstep
        obtain ⟨hnr, htp, htr⟩ := hstep
        have ht := ih r1.ledger r2.ledger
        cases hc1 : scan_class_files t r1.ledger with
        | error e1 =>
          cases hc2 : scan_class_files t r2.ledger with
          | error e2 =>
            obtain ⟨a1, l1, b1, t1⟩ := e1
            obtain ⟨a2, l2, b2, t2⟩ := e2
            rw [hc1, hc2] at ht
            simp only [classStrip, Except.error.injEq, Prod.mk.injEq] at ht
            simp [classStrip, hc1, hc2, htr, ht.1, ht.2]
          | ok p2 =>
            rw [hc1, hc2] at ht
            obtain ⟨a1, l1, b1, t1⟩ := e1
            obtain ⟨recs2, lx, tx⟩ := p2
            simp [classStrip] at ht
        | ok p1 =>
          cases hc2 : scan_class_files t r2.ledger with
          | error e2 =>
            rw [hc1, hc2] at ht
            obtain ⟨recs1, lx, tx⟩ := p1
            obtain ⟨a2, l2, b2, t2⟩ := e2
            simp [classStrip] at ht
          | ok p2 =>
            obtain ⟨recs1, lx1, tx1⟩ := p1
            obtain ⟨recs2, lx2, tx2⟩ := p2
            rw [hc1, hc2] at ht
            simp only [classStrip, Except.ok.injEq, Prod.mk.injEq] at ht
            simp [classStrip, hc1, hc2, hnr, htr, ht.1, ht.2]

lemma scan_subdirs_strip (dirs : List SubdirSpec) (L1 L2 : Ledger) :
    subdirsStrip (scan_subdirs dirs L1) =
      subdirsStrip (scan_subdirs dirs L2) := by
  induction dirs generalizing L1 L2 with
  | nil => rfl
  | cons d t ih =>
    have hstep := scan_class_files_strip d.files L1 L2
    simp only [scan_subdirs]
    cases hs1 : scan_class_files d.files L1 with
    | error e1 =>
      cases hs2 : scan_class_files d.files L2 with
      | error e2 =>
        obtain ⟨a1, l1, b1, t1⟩ := e1
        obtain ⟨a2, l2, b2, t2⟩ := e2
        rw [hs1, hs2] at hstep
        simp only [classStrip, Except.error.injEq, Prod.mk.injEq] at hstep
        simp [subdirsStrip, hstep.1, hstep.2]
      | ok p2 =>
        rw [hs1, hs2] at hstep
        obtain ⟨a1, l1, b1, t1⟩ := e1
        obtain ⟨recs2, lx, tx⟩ := p2
        simp [classStrip] at hstep
    | ok p1 =>
      cases hs2 : scan_class_files d.files L2 with
      | error e2 =>
        rw [hs1, hs2] at hstep
        obtain ⟨recs1, lx, tx⟩ := p1
        obtain ⟨a2, l2, b2, t2⟩ := e2
        simp [classStrip] at hstep
      | ok p2 =>
        obtain ⟨recs1, lx1, tx1⟩ := p1
        obtain ⟨recs2, lx2, tx2⟩ := p2
        rw [hs1, hs2] at hstep
        simp only [classStrip, Except.ok.injEq, Prod.mk.injEq] at hstep
        obtain ⟨hrecs, htr⟩ := hstep
        have ht := ih lx1 lx2
        cases hc1 : scan_subdirs t lx1 with
        | error e1 =>
          cases hc2 : scan_subdirs t lx2 with
          | error e2 =>
            obtain ⟨a1, l1, b1, t1⟩ := e1
            obtain ⟨a2, l2, b2, t2⟩ := e2
            rw [hc1, hc2] at ht
            simp only [subdirsStrip, Except.error.injEq, Prod.mk.injEq] at ht
            simp [subdirsStrip, hc1, hc2, hrecs, htr, ht.1, ht.2]
          | ok q2 =>
            rw [hc1, hc2] at ht
            obtain ⟨a1, l1, b1, t1⟩ := e1
            obtain ⟨cls2, ly, ty⟩ := q2
            simp [subdirsStrip] at ht
        | ok q1 =>
          cases hc2 : scan_subdirs t lx2 with
          | error e2 =>
            rw [hc1, hc2] at ht
            obtain ⟨cls1, ly, ty⟩ := q1
            obtain ⟨a2, l2, b2, t2⟩ := e2
            simp [subdirsStrip] at ht
          | ok q2 =>
            obtain ⟨cls1, ly1, ty1⟩ := q1
            obtain ⟨cls2, ly2, ty2⟩ := q2
            rw [hc1, hc2] at ht
            simp only [subdirsStrip, Except.ok.injEq, Prod.mk.injEq] at ht
            simp [subdirsStrip, hc1, hc2, hrecs, htr, ht.1, ht.2]

/-- C10: the dataset pipeline never reads the processed-file ledger: for any
two ledger states, `scan_dir` over the same directory tree produces the same
dataset dictionary and the same trace of extractions and item submissions
(no already-processed skip).  By contrast, the single-file pipeline does read
the ledger: the same file is extracted on an empty ledger but skipped on a
ledger that mentions it. -/
theorem scan_dir_ledger_independent
    (dataset_name : String) (dirs : List SubdirSpec) (L1 L2 : Ledger) :
    strip_ledger (scan_dir dataset_name dirs L1) =
      strip_ledger (scan_dir dataset_name dirs L2) ∧
    (process_file ⟨⟨0, true, .invalidJson, false⟩, .ok⟩ "a.mp3"
        ⟨[⟨"a.mp3", some "nombid"⟩]⟩).extracted = false ∧
    (process_file ⟨⟨0, true, .invalidJson, false⟩, .ok⟩ "a.mp3"
        ⟨[]⟩).extracted = true := by
  refine ⟨?_, by decide, by decide⟩
  have h := scan_subdirs_strip dirs L1 L2
  simp only [scan_dir]
  cases hs1 : scan_subdirs dirs L1 with
  | error e1 =>
    cases hs2 : scan_subdirs dirs L2 with
    | error e2 =>
      obtain ⟨a1, l1, b1, t1⟩ := e1
      obtain ⟨a2, l2, b2, t2⟩ := e2
      rw [hs1, hs2] at h
      simp only [subdirsStrip, Except.error.injEq, Prod.mk.injEq] at h
      simp [strip_ledger, h.1, h.2]
    | ok p2 =>
      rw [hs1, hs2] at h
      obtain ⟨a1, l1, b1, t1⟩ := e1
      obtain ⟨cls2, ly, ty⟩ := p2
      simp [subdirsStrip] at h
  | ok p1 =>
    cases hs2 : scan_subdirs dirs L2 with
    | error e2 =>
      rw [hs1, hs2] at h
      obtain ⟨cls1, ly, ty⟩ := p1
      obtain ⟨a2, l2, b2, t2⟩ := e2
      simp [subdirsStrip] at h
    | ok p2 =>
      obtain ⟨cls1, ly1, ty1⟩ := p1
      obtain ⟨cls2, ly2, ty2⟩ := p2
      rw [hs1, hs2] at h
      simp only [subdirsStrip, Except.ok.injEq, Prod.mk.injEq] at h
      simp [strip_ledger, h.1, h.2]

end Abz
